import Mathlib

set_option autoImplicit false

namespace Spec2Proof

/-! Shallow embedding of the libnetwork core of this repository: the external
key-exchange helper (`daemon/libnetwork/sandbox_externalkey_unix.go`), the
service-record table, the SRV-style service resolver, the IPAM allocation
engine with rollback, and the persisted (marshalled) representation of the
Network and Endpoint entities. -/

namespace ExtKey

/-- From `sandbox_externalkey_unix.go` line 29: the literal success marker
written back by the server and expected by the client. -/
def success : String := "success"

/-- From `processReturn` (line 107): the client reads the response with a
single `Read` into a 1024-byte buffer. -/
def clientBufSize : Nat := 1024

/-- From `processExternalKey` (line 175): the server reads the request with a
single `Read` into a 1280-byte buffer. -/
def serverBufSize : Nat := 1280

/-- One bounded read: a single `conn.Read(buf)` delivers at most `bufSize`
bytes of the peer's message and the code treats `buf[0:n]` as the entire
message. -/
def readBounded (stream : List Char) (bufSize : Nat) : List Char :=
  stream.take bufSize

/-- From `processReturn` (lines 106-116): the bytes the client obtains from
its single bounded read of the response. -/
def clientReadMessage (resp : List Char) : List Char :=
  readBounded resp clientBufSize

/-- From `processExternalKey` (lines 175-179): the bytes the server obtains
from its single bounded read of the request. -/
def serverReadMessage (req : List Char) : List Char :=
  readBounded req serverBufSize

/-- From `processReturn` (lines 106-116): the client succeeds iff the bytes
read equal the success marker, and otherwise returns an error whose message
is exactly the bytes read (`fmt.Errorf("%s", buf[0:n])`). -/
def processReturn (resp : List Char) : Except (List Char) Unit :=
  if clientReadMessage resp = success.toList then .ok ()
  else .error (clientReadMessage resp)

/-- From `setKeyData` (lines 37-41); the `OTelTrace` carrier is incidental
observability plumbing and carries no state relevant to the protocol. -/
structure SetKeyData where
  containerID : String
  key : String
deriving DecidableEq

/-- Modelled from the spec: a Sandbox "holds the key (namespace path) once
set"; `Sandbox` and `Controller.GetSandbox`/`Sandbox.SetKey` live outside
`src/`, so only the fields the key exchange touches are modelled. -/
structure Sandbox where
  containerID : String
  key : Option String
deriving DecidableEq

/-- Modelled from the spec: the Controller "holds the single registry of
Networks, Sandboxes, and the Service Record Table"; only the sandbox table
is relevant to the key exchange. -/
structure Controller where
  sandboxes : List Sandbox
deriving DecidableEq

/-- Modelled from the spec: `Controller.GetSandbox` "looks up the Sandbox by
containerID" (the implementation is outside `src/`). -/
def lookupSandbox (sandboxes : List Sandbox) (containerID : String) :
    Option Sandbox :=
  match sandboxes with
  | [] => none
  | sb :: rest =>
    if sb.containerID = containerID then some sb
    else lookupSandbox rest containerID

/-- Modelled from the spec: `Controller.GetSandbox` over the controller's
sandbox table. -/
def getSandbox (c : Controller) (containerID : String) : Option Sandbox :=
  lookupSandbox c.sandboxes containerID

/-- Modelled from the spec: `Sandbox.SetKey` stores the namespace path in the
sandbox ("key supplied asynchronously by the Key Exchange Listener"); the
implementation is outside `src/`. It updates the first sandbox matching the
container id. -/
def setKeyTable (sandboxes : List Sandbox) (containerID : String)
    (k : String) : List Sandbox :=
  match sandboxes with
  | [] => []
  | sb :: rest =>
    if sb.containerID = containerID then { sb with key := some k } :: rest
    else sb :: setKeyTable rest containerID k

/-- Modelled from the spec: `Sandbox.SetKey` applied through the controller's
sandbox table. -/
def setKey (c : Controller) (containerID : String) (k : String) : Controller :=
  ⟨setKeyTable c.sandboxes containerID k⟩

/-- Outcome of reading and JSON-decoding the request on one connection
(`conn.Read` + `json.Unmarshal` in `processExternalKey`, lines 175-183). -/
inductive ConnMessage where
  | malformed
  | valid (d : SetKeyData)
deriving DecidableEq

/-- From `processExternalKey` (line 181): the error text produced when
`json.Unmarshal` fails on the request bytes. -/
def jsonDecodeError : String := "invalid character in setKeyData"

/-- From `processExternalKey` (line 187): the error text of
`types.InvalidParameterErrorf("failed to get sandbox for %s", ...)`. -/
def getSandboxError (containerID : String) : String :=
  "failed to get sandbox for " ++ containerID

/-- From `processExternalKey` (lines 174-190): decode the request, look up
the sandbox by container id, and set its key; any failure is returned as an
error. -/
def processExternalKey (c : Controller) (msg : ConnMessage) :
    Except String Controller :=
  match msg with
  | .malformed => .error jsonDecodeError
  | .valid d =>
    match getSandbox c d.containerID with
    | none => .error (getSandboxError d.containerID)
    | some _ => .ok (setKey c d.containerID d.key)

/-- From `acceptClientConnections` (lines 157-170): the per-connection
handler writes back the success marker when `processExternalKey` succeeds
and the error text otherwise; on error the controller state is unchanged. -/
def handleConnection (c : Controller) (msg : ConnMessage) :
    String × Controller :=
  match processExternalKey c msg with
  | .ok c' => (success, c')
  | .error e => (e, c)

/-- One iteration's inputs of the accept loop: the result of `l.Accept()`
and whether `os.Stat(sock)` still finds the socket file at that moment. -/
structure AcceptEvent where
  acceptError : Option String
  socketPresent : Bool
deriving DecidableEq

/-- Decision taken by one iteration of `acceptClientConnections`
(lines 145-172). -/
inductive LoopAction where
  | handleConn
  | stopSilently
  | logAndContinue (e : String)
deriving DecidableEq

/-- From `acceptClientConnections` (lines 146-156): on an accept error the
loop stops silently iff `os.Stat` reports the socket file gone; any other
accept error is logged and the loop continues; a successful accept is
handled on its own task. -/
def acceptLoopStep (ev : AcceptEvent) : LoopAction :=
  match ev.acceptError with
  | none => .handleConn
  | some e => if ev.socketPresent then .logAndContinue e else .stopSilently

/-- The accept loop run over a finite prefix of accept outcomes: returns the
index at which the loop terminated, or `none` if it was still accepting
after consuming every event. -/
def acceptLoop : List AcceptEvent → Option Nat
  | [] => none
  | ev :: rest =>
    if acceptLoopStep ev = .stopSilently then some 0
    else (acceptLoop rest).map (· + 1)

/-- Observable state left behind by `startExternalKeyListener`. -/
structure ListenerState where
  listenerOpen : Bool
  acceptLoopRunning : Bool
deriving DecidableEq

/-- Failure modes of the setup steps in `startExternalKeyListener`
(lines 118-143). -/
inductive SetupError where
  | mkdirFailed
  | listenFailed
  | chmodFailed
deriving DecidableEq

/-- From `startExternalKeyListener` (lines 118-143): `os.MkdirAll`, then
`net.Listen` (which opens the listener), then `os.Chmod`; if the chmod
fails the just-created listener is closed before the error is returned, and
the accept goroutine is started only after every step succeeded. -/
def startExternalKeyListener (mkdirOk listenOk chmodOk : Bool) :
    ListenerState × Option SetupError :=
  let s0 : ListenerState := ⟨false, false⟩
  if ¬mkdirOk then (s0, some .mkdirFailed)
  else if ¬listenOk then (s0, some .listenFailed)
  else
    let s1 : ListenerState := { s0 with listenerOpen := true }
    if ¬chmodOk then ({ s1 with listenerOpen := false }, some .chmodFailed)
    else ({ s1 with acceptLoopRunning := true }, none)

end ExtKey

namespace SvcRecords

/-- Modelled from the spec: the reference-counted multi-set backing service
records (`internal/setmatrix.SetMatrix`, outside `src/`) — "an explicit
mapping from key to an ordered list of (value, refcount) pairs with
add/remove/get operations". A row is one key's list of pairs. -/
abbrev Row (V : Type) : Type := List (V × Nat)

/-- Modelled from the spec: insert one value into a row — bump the refcount
of an existing value, or append it with refcount 1. -/
def rowInsert {V : Type} [DecidableEq V] (row : Row V) (v : V) : Row V :=
  match row with
  | [] => [(v, 1)]
  | (w, c) :: rest =>
    if w = v then (w, c + 1) :: rest else (w, c) :: rowInsert rest v

/-- Modelled from the spec: remove one registrant of a value from a row —
decrement its refcount, dropping the pair when the count reaches zero;
removing a value that is not present is a no-op. -/
def rowRemove {V : Type} [DecidableEq V] (row : Row V) (v : V) : Row V :=
  match row with
  | [] => []
  | (w, c) :: rest =>
    if w = v then (if c ≤ 1 then rest else (w, c - 1) :: rest)
    else (w, c) :: rowRemove rest v

/-- Modelled from the spec: the set-matrix, a mapping from string keys to
rows of (value, refcount) pairs. -/
abbrev SetMatrix (V : Type) : Type := List (String × Row V)

/-- Modelled from the spec: `SetMatrix.Insert` — add a registrant for `v`
under key `k`, creating the key's row when absent. -/
def smInsert {V : Type} [DecidableEq V] (m : SetMatrix V) (k : String)
    (v : V) : SetMatrix V :=
  match m with
  | [] => [(k, [(v, 1)])]
  | (k', row) :: rest =>
    if k' = k then (k', rowInsert row v) :: rest
    else (k', row) :: smInsert rest k v

/-- Modelled from the spec: `SetMatrix.Remove` — remove one registrant for
`v` under key `k`; a missing key or value is a no-op. -/
def smRemove {V : Type} [DecidableEq V] (m : SetMatrix V) (k : String)
    (v : V) : SetMatrix V :=
  match m with
  | [] => []
  | (k', row) :: rest =>
    if k' = k then (k', rowRemove row v) :: rest
    else (k', row) :: smRemove rest k v

/-- Modelled from the spec: `SetMatrix.Get` — the set of values currently
registered under key `k` (each value once, whatever its refcount). -/
def smGet {V : Type} (m : SetMatrix V) (k : String) : List V :=
  match m with
  | [] => []
  | (k', row) :: rest =>
    if k' = k then row.map (·.1) else smGet rest k

/-- From the data model (§3): one service-record entry, "{service name, IP
address, metadata} stored in a reference-counted multi-set keyed by name";
the stored value carries the address and the registering service id
(`svcMapEntry`). -/
structure svcMapEntry where
  ip : String
  serviceID : String
deriving DecidableEq

/-- Modelled from the spec: the reverse-map entry kept per address for
`ResolveIP` — the service name and the registering service id. -/
structure ipEntry where
  name : String
  serviceID : String
deriving DecidableEq

/-- Modelled from the spec: the per-network service-record state — the
name → address multi-set (`svcMap`) and the address → name multi-set
(`ipMap`) for one address family. -/
structure SvcState where
  svcMap : SetMatrix svcMapEntry
  ipMap : SetMatrix ipEntry
deriving DecidableEq

/-- Modelled from the spec: `AddServiceRecord` — "inserts (serviceName → ip)
into a reference-counted multi-set scoped to the network and address
family", one entry per (serviceName, ip) pair per distinct serviceID; when
`ipMapUpdate` is set the reverse map gains the matching (name, serviceID)
entry. The endpoint name parameter is carried but the stored value is keyed
by (ip, serviceID), as the registrant tuple. -/
def addSvcRecords (epName name serviceID ip : String) (ipMapUpdate : Bool)
    (s : SvcState) : SvcState :=
  let _ := epName
  { svcMap := smInsert s.svcMap name ⟨ip, serviceID⟩
    ipMap :=
      if ipMapUpdate then smInsert s.ipMap ip ⟨name, serviceID⟩ else s.ipMap }

/-- Modelled from the spec: `DeleteServiceRecord` — "removes exactly the
entry added by a matching tuple; removing a registrant that was never added
is a no-op (not an error)". -/
def deleteSvcRecords (epName name serviceID ip : String) (ipMapUpdate : Bool)
    (s : SvcState) : SvcState :=
  let _ := epName
  { svcMap := smRemove s.svcMap name ⟨ip, serviceID⟩
    ipMap :=
      if ipMapUpdate then smRemove s.ipMap ip ⟨name, serviceID⟩ else s.ipMap }

/-- Deduplication of the address list, keeping first occurrences, as done by
the `noDup` map in `Network.ResolveName`. -/
def dedupAux (seen : List String) : List String → List String
  | [] => []
  | x :: xs =>
    if x ∈ seen then dedupAux seen xs else x :: dedupAux (x :: seen) xs

/-- Modelled from the spec: `ResolveName` — "returns the current address set
for a name in a given family; empty if no registrant remains"; addresses
shared by several registrants appear once. -/
def ResolveName (s : SvcState) (name : String) : List String :=
  dedupAux [] ((smGet s.svcMap name).map (·.ip))

/-- Modelled from the spec: `ResolveIP` — "reverse lookup; returns empty
string once the last registrant for that address is removed"; a resolved
name is qualified with the network name (the test expects
`service_test.net1`). -/
def ResolveIP (s : SvcState) (networkName ip : String) : String :=
  match smGet s.ipMap ip with
  | [] => ""
  | e :: _ => e.name ++ "." ++ networkName

end SvcRecords

namespace Srv

/-- From the data model (§3): one backing target of a service port —
"(name, address, port)" (`serviceTarget` as instantiated in the tests). -/
structure serviceTarget where
  name : String
  ip : String
  port : Nat
deriving DecidableEq

/-- From the data model (§3): one protocol/port of a service and its backing
targets (`servicePorts` as instantiated in the tests). -/
structure servicePorts where
  portName : String
  proto : String
  target : List serviceTarget
deriving DecidableEq

/-- From the data model (§3): the per-network `svcInfo.service` table —
service name → ordered list of `servicePorts`. -/
abbrev ServiceTable : Type := List (String × List servicePorts)

/-- Assoc lookup in the service table; a missing service has no ports. -/
def lookupService (t : ServiceTable) (svcName : String) :
    List servicePorts :=
  match t with
  | [] => []
  | (n, ports) :: rest =>
    if n = svcName then ports else lookupService rest svcName

/-- Splitting a query on the dot character (the shape of
`strings.Split(name, ".")`), written structurally over the characters. -/
def splitDotAux (cur : List Char) : List Char → List (List Char)
  | [] => [cur.reverse]
  | c :: cs =>
    if c = '.' then cur.reverse :: splitDotAux [] cs
    else splitDotAux (c :: cur) cs

/-- The labels of a DNS-style query. -/
def queryLabels (q : String) : List String :=
  (splitDotAux [] q.toList).map (fun l => String.mk l)

/-- Joining the remaining labels back with dots, the shape of
`strings.Join(parts[2:], ".")`. -/
def joinDots : List String → String
  | [] => ""
  | [x] => x
  | x :: xs => x ++ "." ++ joinDots xs

/-- Modelled from the spec: `ResolveService` "parses a `_port._proto.service`
style query" — fewer than three labels is malformed (`none`); otherwise the
first label is the port name, the second the protocol, and the rest joined
by dots is the service name. The implementation is outside `src/`. -/
def parseSrvQuery (q : String) : Option (String × String × String) :=
  match queryLabels q with
  | port :: proto :: svc1 :: svcRest =>
    some (port, proto, joinDots (svc1 :: svcRest))
  | _ => none

/-- Modelled from the spec: `ResolveService` — "looks up `svcInfo` for the
service, returns each backing target's address; unknown protocol or
malformed query returns an empty result, not an error". -/
def ResolveService (t : ServiceTable) (q : String) : List String :=
  match parseSrvQuery q with
  | none => []
  | some (port, proto, svcName) =>
    ((lookupService t svcName).filter
      (fun sp => sp.portName = port ∧ sp.proto = proto)).flatMap
      (fun sp => sp.target.map (·.ip))

/-- The service table registered by `TestSRVServiceQuery` (lines 520-549):
service `web.swarm` with a container-backed `_http._tcp` target and a
host-published `_host_http._tcp` target. -/
def testServiceTable : ServiceTable :=
  [("web.swarm",
    [⟨"_http", "_tcp", [⟨"task1.web.swarm", "192.168.10.2", 80⟩]⟩,
     ⟨"_host_http", "_tcp", [⟨"node1.docker-cluster", "10.10.10.2", 45321⟩]⟩])]

end Srv

namespace Ipam

/-- Modelled from the spec: an address pool — "pools are CIDR prefixes" —
represented by its first address and its size; addresses are 32-bit
integers written as naturals. -/
structure Pool where
  base : Nat
  size : Nat
deriving DecidableEq

/-- Membership of an address in a pool's range. -/
def Pool.holds (p : Pool) (a : Nat) : Bool :=
  decide (p.base ≤ a) && decide (a < p.base + p.size)

/-- Range overlap between two pools. -/
def Pool.overlaps (p q : Pool) : Bool :=
  decide (p.base < q.base + q.size) && decide (q.base < p.base + p.size)

/-- Containment of one pool's range in another's. -/
def Pool.inside (sub master : Pool) : Bool :=
  decide (master.base ≤ sub.base) &&
    decide (sub.base + sub.size ≤ master.base + master.size)

/-- Modelled from the spec: the IPAM engine's state — the allocated pools,
each carrying the list of addresses currently reserved from it; the pool
itself serves as its pool id. -/
structure IpamState where
  pools : List (Pool × List Nat)
deriving DecidableEq

/-- Modelled from the spec: the allocation request for one pool of one
address family — "{preferred pool, sub-pool, gateway, auxiliary addresses}"
(the `IpamConf` fields that drive allocation). -/
structure AllocConf where
  preferredPool : Pool
  subPool : Option Pool
  gateway : Option Nat
  auxAddresses : List (String × Nat)
deriving DecidableEq

/-- Modelled from the spec: the error taxonomy of §7 restricted to the
allocation paths. -/
inductive IpamError where
  | poolOverlap
  | invalidSubPool
  | invalidGateway (g : Nat)
  | addressInUse (a : Nat)
  | auxOutOfRange (a : Nat)
deriving DecidableEq

/-- Modelled from the spec: `RequestPool(preferredPool, subPool)` — fails
when the requested range overlaps an already-allocated pool ("no two
networks receive overlapping ranges while any allocation is outstanding")
or when the sub-pool does not lie within the preferred pool; otherwise the
pool is recorded with no reserved addresses. -/
def requestPool (st : IpamState) (conf : AllocConf) :
    Except IpamError IpamState :=
  if (conf.subPool.map (fun s => s.inside conf.preferredPool)).getD true then
    if st.pools.any (fun r => r.1.overlaps conf.preferredPool) then
      .error .poolOverlap
    else .ok ⟨(conf.preferredPool, []) :: st.pools⟩
  else .error .invalidSubPool

/-- Reserve an address inside an allocated pool's row: the row keyed by the
pool gains the address, unless it is already reserved there. -/
def reserveRows (rows : List (Pool × List Nat)) (p : Pool) (a : Nat) :
    Option (List (Pool × List Nat)) :=
  match rows with
  | [] => none
  | (q, addrs) :: rest =>
    if q = p then
      if a ∈ addrs then none else some ((q, a :: addrs) :: rest)
    else (reserveRows rest p a).map (fun rs => (q, addrs) :: rs)

/-- Modelled from the spec: `RequestAddress(poolID, preferredAddress)` for an
explicit address — it "marks it reserved within the pool" and fails when the
address is already reserved. -/
def reserveAddress (st : IpamState) (p : Pool) (a : Nat) :
    Option IpamState :=
  (reserveRows st.pools p a).map IpamState.mk

/-- Remove one row (an allocated pool and all its reserved addresses). -/
def removeRow (rows : List (Pool × List Nat)) (p : Pool) :
    List (Pool × List Nat) :=
  match rows with
  | [] => []
  | (q, addrs) :: rest =>
    if q = p then rest else (q, addrs) :: removeRow rest p

/-- Modelled from the spec: `ReleasePool(poolID)` — "safe to call even when
allocation was partial ... release is the universal cleanup primitive
invoked by the rollback paths"; it frees the pool together with every
address reserved from it. -/
def releasePool (st : IpamState) (p : Pool) : IpamState :=
  ⟨removeRow st.pools p⟩

/-- Modelled from the spec: reservation of the auxiliary addresses —
"auxiliary addresses are validated to lie within the granted pool — an
auxiliary address outside the pool's range must fail the whole allocation"
(the test accepts an auxiliary address outside the sub-pool, so validation
is against the master pool). -/
def allocAux (st : IpamState) (p : Pool) :
    List (String × Nat) → Except IpamError IpamState
  | [] => .ok st
  | (_, a) :: rest =>
    if p.holds a then
      match reserveAddress st p a with
      | some st' => allocAux st' p rest
      | none => .error (.addressInUse a)
    else .error (.auxOutOfRange a)

/-- Modelled from the spec: gateway reservation — "explicit gateway strings
... must lie within the granted pool or fail with `InvalidGateway`"; when a
gateway is requested it is marked reserved within the pool. -/
def allocGateway (st : IpamState) (p : Pool) :
    Option Nat → Except IpamError IpamState
  | none => .ok st
  | some g =>
    if p.holds g then
      match reserveAddress st p g with
      | some st' => .ok st'
      | none => .error (.addressInUse g)
    else .error (.invalidGateway g)

/-- Result of allocating for one Network: on failure the engine state after
the rollback releases are carried alongside the error. -/
inductive IpamResult where
  | ok (st : IpamState) (pools : List Pool)
  | fail (st : IpamState) (e : IpamError)
deriving DecidableEq

/-- The engine state an allocation attempt left behind. -/
def IpamResult.state : IpamResult → IpamState
  | .ok st _ => st
  | .fail st _ => st

/-- Modelled from the spec: the per-config allocation of `ipamAllocate` —
request the pool, reserve the gateway, then reserve and validate each
auxiliary address; "one bad auxiliary address aborts pool/gateway
allocation for that family", with the rollback releasing the pool (and with
it the gateway and auxiliary addresses already taken) before the error is
returned. -/
def ipamAllocateOne (st : IpamState) (conf : AllocConf) : IpamResult :=
  match requestPool st conf with
  | .error e => .fail st e
  | .ok st1 =>
    match allocGateway st1 conf.preferredPool conf.gateway with
    | .error e => .fail (releasePool st1 conf.preferredPool) e
    | .ok st2 =>
      match allocAux st2 conf.preferredPool conf.auxAddresses with
      | .error e => .fail (releasePool st2 conf.preferredPool) e
      | .ok st3 => .ok st3 [conf.preferredPool]

/-- Modelled from the spec: `ipamAllocate` over the ordered list of IPAM
config entries — "one pool per configured IPAM config entry"; a failure in a
later entry releases the pools granted to the earlier entries before the
error is returned. -/
def ipamAllocate (st : IpamState) : List AllocConf → IpamResult
  | [] => .ok st []
  | conf :: confs =>
    match ipamAllocateOne st conf with
    | .fail st' e => .fail st' e
    | .ok st1 ps1 =>
      match ipamAllocate st1 confs with
      | .fail st' e => .fail (releasePool st' conf.preferredPool) e
      | .ok st2 ps2 => .ok st2 (ps1 ++ ps2)

/-- Modelled from the spec: `ipamRelease` — release every pool allocated for
the Network, later entries first. -/
def ipamRelease (st : IpamState) : List Pool → IpamState
  | [] => st
  | p :: ps => releasePool (ipamRelease st ps) p

/-- Modelled from the spec: a Network entry in the Controller's network
table, reduced to the fields the creation flow touches — its name and the
pools allocated for it. -/
structure NetController where
  ipam : IpamState
  networks : List (String × List Pool)
deriving DecidableEq

/-- Modelled from the spec: the error taxonomy of `NewNetwork`. -/
inductive NetError where
  | networkNameTaken
  | ipamError (e : IpamError)
  | driverCreateFailed
deriving DecidableEq

/-- Result of `NewNetwork`: on failure the controller state after rollback
is carried alongside the error. -/
inductive NetResult where
  | ok (c : NetController)
  | fail (c : NetController) (e : NetError)
deriving DecidableEq

/-- The controller state a creation attempt left behind. -/
def NetResult.state : NetResult → NetController
  | .ok c => c
  | .fail c _ => c

/-- Modelled from the spec: `NewNetwork` — validate the name, invoke the
IPAM engine "to allocate one pool per configured IPAM config entry", then
invoke the driver's `CreateNetwork` (a driver which fails is modelled by
`driverFails`); "if driver creation fails, all pools allocated for this
Network must be released before returning the error". -/
def newNetwork (c : NetController) (driverFails : Bool) (name : String)
    (confs : List AllocConf) : NetResult :=
  if c.networks.any (fun n => n.1 = name) then .fail c .networkNameTaken
  else
    match ipamAllocate c.ipam confs with
    | .fail st e => .fail { c with ipam := st } (.ipamError e)
    | .ok st ps =>
      if driverFails then
        .fail { c with ipam := ipamRelease st ps } .driverCreateFailed
      else .ok { ipam := st, networks := (name, ps) :: c.networks }

end Ipam

namespace Persist

/-- A JSON-like value, the target of the persisted representation: "Network
and Endpoint entities are serialized ... as flat field sets". `null` is
distinct from an empty array or object, which is what preserves nil vs.
empty for address lists. -/
inductive JVal where
  | null
  | str (s : String)
  | num (n : Nat)
  | bool (b : Bool)
  | arr (items : List JVal)
  | obj (fields : List (String × JVal))

/-- An IP network value as the entities store it: address bytes and mask
bytes (`net.IPNet`). -/
structure IPNet where
  ip : List Nat
  mask : List Nat
deriving DecidableEq

/-- From `TestNetworkMarshalling` (lines 47-59): the requested IPAM
configuration of one pool; `AuxAddresses` distinguishes nil from an empty
map. -/
structure IpamConf where
  PreferredPool : String
  SubPool : String
  Gateway : String
  AuxAddresses : Option (List (String × String))
deriving DecidableEq

/-- From `TestNetworkMarshalling` (lines 68-128): the allocation results
returned by the IPAM engine for one pool; `Pool`, `Gateway` and
`AuxAddresses` "are driver-opaque network/address values returned verbatim
by the allocator and must round-trip through persistence unchanged". -/
structure IpamInfo where
  PoolID : String
  Meta : List (String × String)
  AddressSpace : String
  Pool : Option IPNet
  Gateway : Option IPNet
  AuxAddresses : Option (List (String × IPNet))
deriving DecidableEq

/-- From `TestNetworkMarshalling` (lines 32-134): the persisted fields of a
Network entity. -/
structure Network where
  name : String
  id : String
  networkType : String
  ipamType : String
  addrSpace : String
  enableIPv4 : Bool
  enableIPv6 : Bool
  persist : Bool
  configOnly : Bool
  configFrom : String
  ipamOptions : List (String × String)
  ipamV4Config : List IpamConf
  ipamV6Config : List IpamConf
  ipamV4Info : List IpamInfo
  ipamV6Info : List IpamInfo
  labels : List (String × String)
  created : Nat
deriving DecidableEq

/-- From `TestEndpointMarshalling` (lines 204-216): the persisted fields of
an endpoint's interface; the link-local address list distinguishes nil from
empty. -/
structure EndpointInterface where
  mac : List Nat
  addr : Option IPNet
  addrv6 : Option IPNet
  srcName : String
  dstPrefix : String
  dstName : String
  v4PoolID : String
  v6PoolID : String
  llAddrs : Option (List IPNet)
deriving DecidableEq

/-- From `TestEndpointMarshalling` (lines 200-218): the persisted fields of
an Endpoint entity. -/
structure Endpoint where
  name : String
  id : String
  sandboxID : String
  iface : EndpointInterface
  dnsNames : List String
deriving DecidableEq

/-- Encoding of a list of numbers (address or mask bytes). -/
def encNatList (l : List Nat) : JVal := .arr (l.map .num)

/-- Decoding of a list of numbers. -/
def decNums : List JVal → Option (List Nat)
  | [] => some []
  | .num n :: rest => (decNums rest).map (n :: ·)
  | _ => none

/-- Decoding of an encoded list of numbers. -/
def decNatList : JVal → Option (List Nat)
  | .arr items => decNums items
  | _ => none

/-- Encoding of a string-to-string map as a flat object. -/
def encStrMap (m : List (String × String)) : JVal :=
  .obj (m.map (fun kv => (kv.1, .str kv.2)))

/-- Decoding of the fields of a string-to-string map. -/
def decStrFields : List (String × JVal) → Option (List (String × String))
  | [] => some []
  | (k, .str v) :: rest => (decStrFields rest).map ((k, v) :: ·)
  | _ => none

/-- Decoding of a string-to-string map. -/
def decStrMap : JVal → Option (List (String × String))
  | .obj fields => decStrFields fields
  | _ => none

/-- Encoding of an `IPNet`. -/
def encIPNet (n : IPNet) : JVal :=
  .obj [("ip", encNatList n.ip), ("mask", encNatList n.mask)]

/-- Decoding of an `IPNet`. -/
def decIPNet : JVal → Option IPNet
  | .obj [("ip", i), ("mask", m)] =>
    (decNatList i).bind (fun i' => (decNatList m).map (fun m' => ⟨i', m'⟩))
  | _ => none

/-- Encoding of an optional value, with `null` for the missing (nil) case. -/
def encOpt {α : Type} (enc : α → JVal) : Option α → JVal
  | none => .null
  | some x => enc x

/-- Decoding of an optional value. -/
def decOpt {α : Type} (dec : JVal → Option α) : JVal → Option (Option α)
  | .null => some none
  | j => (dec j).map some

/-- Generic decoding of an encoded array. -/
def decList {α : Type} (dec : JVal → Option α) : List JVal → Option (List α)
  | [] => some []
  | j :: rest => (dec j).bind (fun x => (decList dec rest).map (x :: ·))

/-- Decoding of a string value. -/
def decStr : JVal → Option String
  | .str v => some v
  | _ => none

/-- Decoding of a boolean value. -/
def decBool : JVal → Option Bool
  | .bool b => some b
  | _ => none

/-- Decoding of a numeric value. -/
def decNum : JVal → Option Nat
  | .num n => some n
  | _ => none

/-- Consuming one expected field of a flat field set: the next field must
carry the expected key and a value its decoder accepts. -/
def field {α : Type} (key : String) (dec : JVal → Option α)
    (fields : List (String × JVal)) : Option (α × List (String × JVal)) :=
  match fields with
  | (k, v) :: rest =>
    if k = key then (dec v).map (fun x => (x, rest)) else none
  | [] => none

/-- Encoding of a list of IP networks. -/
def encIPNetList (l : List IPNet) : JVal := .arr (l.map encIPNet)

/-- Decoding of a list of IP networks. -/
def decIPNetList : JVal → Option (List IPNet)
  | .arr items => decList decIPNet items
  | _ => none

/-- Encoding of a string-to-IPNet map as a flat object. -/
def encIPNetMap (m : List (String × IPNet)) : JVal :=
  .obj (m.map (fun kv => (kv.1, encIPNet kv.2)))

/-- Decoding of the fields of a string-to-IPNet map. -/
def decIPNetFields : List (String × JVal) → Option (List (String × IPNet))
  | [] => some []
  | (k, j) :: rest =>
    (decIPNet j).bind (fun n => (decIPNetFields rest).map ((k, n) :: ·))

/-- Decoding of a string-to-IPNet map. -/
def decIPNetMap : JVal → Option (List (String × IPNet))
  | .obj fields => decIPNetFields fields
  | _ => none

/-- Encoding of a list of strings. -/
def encStrList (l : List String) : JVal := .arr (l.map .str)

/-- Decoding of a list of strings. -/
def decStrs : List JVal → Option (List String)
  | [] => some []
  | .str s :: rest => (decStrs rest).map (s :: ·)
  | _ => none

/-- Decoding of an encoded list of strings. -/
def decStrList : JVal → Option (List String)
  | .arr items => decStrs items
  | _ => none

/-- Modelled from the spec: serialization of one `IpamConf` as a flat field
set. -/
def marshalIpamConf (c : IpamConf) : JVal :=
  .obj [("PreferredPool", .str c.PreferredPool),
        ("SubPool", .str c.SubPool),
        ("Gateway", .str c.Gateway),
        ("AuxAddresses", encOpt encStrMap c.AuxAddresses)]

/-- Modelled from the spec: deserialization of one `IpamConf`. -/
def unmarshalIpamConf : JVal → Option IpamConf
  | .obj [("PreferredPool", .str pp), ("SubPool", .str sp),
          ("Gateway", .str gw), ("AuxAddresses", aux)] =>
    (decOpt decStrMap aux).map (fun a => ⟨pp, sp, gw, a⟩)
  | _ => none

/-- Modelled from the spec: serialization of one `IpamInfo` as a flat field
set. -/
def marshalIpamInfo (i : IpamInfo) : JVal :=
  .obj [("PoolID", .str i.PoolID),
        ("Meta", encStrMap i.Meta),
        ("AddressSpace", .str i.AddressSpace),
        ("Pool", encOpt encIPNet i.Pool),
        ("Gateway", encOpt encIPNet i.Gateway),
        ("AuxAddresses", encOpt encIPNetMap i.AuxAddresses)]

/-- Modelled from the spec: deserialization of one `IpamInfo`. -/
def unmarshalIpamInfo : JVal → Option IpamInfo
  | .obj [("PoolID", .str pid), ("Meta", meta), ("AddressSpace", .str sp),
          ("Pool", pool), ("Gateway", gw), ("AuxAddresses", aux)] =>
    (decStrMap meta).bind (fun m =>
      (decOpt decIPNet pool).bind (fun p =>
        (decOpt decIPNet gw).bind (fun g =>
          (decOpt decIPNetMap aux).map (fun a => ⟨pid, m, sp, p, g, a⟩))))
  | _ => none

/-- Modelled from the spec: serialization of a Network entity "as flat field
sets" (the implementation's `MarshalJSON` is outside `src/`). -/
def marshalNetwork (n : Network) : JVal :=
  .obj [("name", .str n.name),
        ("id", .str n.id),
        ("networkType", .str n.networkType),
        ("ipamType", .str n.ipamType),
        ("addrSpace", .str n.addrSpace),
        ("enableIPv4", .bool n.enableIPv4),
        ("enableIPv6", .bool n.enableIPv6),
        ("persist", .bool n.persist),
        ("configOnly", .bool n.configOnly),
        ("configFrom", .str n.configFrom),
        ("ipamOptions", encStrMap n.ipamOptions),
        ("ipamV4Config", .arr (n.ipamV4Config.map marshalIpamConf)),
        ("ipamV6Config", .arr (n.ipamV6Config.map marshalIpamConf)),
        ("ipamV4Info", .arr (n.ipamV4Info.map marshalIpamInfo)),
        ("ipamV6Info", .arr (n.ipamV6Info.map marshalIpamInfo)),
        ("labels", encStrMap n.labels),
        ("created", .num n.created)]

/-- Decoding of an encoded list of IPAM configurations. -/
def decConfList : JVal → Option (List IpamConf)
  | .arr items => decList unmarshalIpamConf items
  | _ => none

/-- Decoding of an encoded list of IPAM allocation results. -/
def decInfoList : JVal → Option (List IpamInfo)
  | .arr items => decList unmarshalIpamInfo items
  | _ => none

/-- Final stage of Network deserialization: the trailing labels and
creation-time fields, rejecting any leftover field. -/
def unmarshalNetworkTail (name id networkType ipamType addrSpace : String)
    (e4 e6 persist configOnly : Bool) (configFrom : String)
    (opts : List (String × String)) (c4 c6 : List IpamConf)
    (i4 i6 : List IpamInfo) (fs : List (String × JVal)) : Option Network :=
  (field "labels" decStrMap fs).bind fun (lbls, fs) =>
  (field "created" decNum fs).bind fun (created, fs) =>
  match fs with
  | [] => some ⟨name, id, networkType, ipamType, addrSpace, e4, e6,
      persist, configOnly, configFrom, opts, c4, c6, i4, i6, lbls, created⟩
  | _ => none

/-- Middle stage of Network deserialization: the IPAM option, config and
info fields. -/
def unmarshalNetworkIpam (name id networkType ipamType addrSpace : String)
    (e4 e6 persist configOnly : Bool) (configFrom : String)
    (fs : List (String × JVal)) : Option Network :=
  (field "ipamOptions" decStrMap fs).bind fun (opts, fs) =>
  (field "ipamV4Config" decConfList fs).bind fun (c4, fs) =>
  (field "ipamV6Config" decConfList fs).bind fun (c6, fs) =>
  (field "ipamV4Info" decInfoList fs).bind fun (i4, fs) =>
  (field "ipamV6Info" decInfoList fs).bind fun (i6, fs) =>
  unmarshalNetworkTail name id networkType ipamType addrSpace e4 e6 persist
    configOnly configFrom opts c4 c6 i4 i6 fs

/-- Modelled from the spec: deserialization of a Network entity (the
implementation's `UnmarshalJSON` is outside `src/`), consuming the flat
field set one expected field at a time and rejecting any leftover field. -/
def unmarshalNetwork : JVal → Option Network
  | .obj fs =>
    (field "name" decStr fs).bind fun (name, fs) =>
    (field "id" decStr fs).bind fun (id, fs) =>
    (field "networkType" decStr fs).bind fun (networkType, fs) =>
    (field "ipamType" decStr fs).bind fun (ipamType, fs) =>
    (field "addrSpace" decStr fs).bind fun (addrSpace, fs) =>
    (field "enableIPv4" decBool fs).bind fun (e4, fs) =>
    (field "enableIPv6" decBool fs).bind fun (e6, fs) =>
    (field "persist" decBool fs).bind fun (persist, fs) =>
    (field "configOnly" decBool fs).bind fun (configOnly, fs) =>
    (field "configFrom" decStr fs).bind fun (configFrom, fs) =>
    unmarshalNetworkIpam name id networkType ipamType addrSpace e4 e6
      persist configOnly configFrom fs
  | _ => none

/-- Modelled from the spec: serialization of an endpoint interface as a flat
field set. -/
def marshalIface (i : EndpointInterface) : JVal :=
  .obj [("mac", encNatList i.mac),
        ("addr", encOpt encIPNet i.addr),
        ("addrv6", encOpt encIPNet i.addrv6),
        ("srcName", .str i.srcName),
        ("dstPrefix", .str i.dstPrefix),
        ("dstName", .str i.dstName),
        ("v4PoolID", .str i.v4PoolID),
        ("v6PoolID", .str i.v6PoolID),
        ("llAddrs", encOpt encIPNetList i.llAddrs)]

/-- Modelled from the spec: deserialization of an endpoint interface. -/
def unmarshalIface : JVal → Option EndpointInterface
  | .obj [("mac", mac), ("addr", addr), ("addrv6", addrv6),
          ("srcName", .str srcName), ("dstPrefix", .str dp),
          ("dstName", .str dn), ("v4PoolID", .str p4),
          ("v6PoolID", .str p6), ("llAddrs", ll)] =>
    (decNatList mac).bind (fun m =>
      (decOpt decIPNet addr).bind (fun a4 =>
        (decOpt decIPNet addrv6).bind (fun a6 =>
          (decOpt decIPNetList ll).map
            (fun lls => ⟨m, a4, a6, srcName, dp, dn, p4, p6, lls⟩))))
  | _ => none

/-- Modelled from the spec: serialization of an Endpoint entity "as flat
field sets". -/
def marshalEndpoint (e : Endpoint) : JVal :=
  .obj [("name", .str e.name),
        ("id", .str e.id),
        ("sandboxID", .str e.sandboxID),
        ("ep_iface", marshalIface e.iface),
        ("dnsNames", encStrList e.dnsNames)]

/-- Modelled from the spec: deserialization of an Endpoint entity,
consuming the flat field set one expected field at a time and rejecting
any leftover field. -/
def unmarshalEndpoint : JVal → Option Endpoint
  | .obj fs =>
    (field "name" decStr fs).bind fun (name, fs) =>
    (field "id" decStr fs).bind fun (id, fs) =>
    (field "sandboxID" decStr fs).bind fun (sandboxID, fs) =>
    (field "ep_iface" unmarshalIface fs).bind fun (i, fs) =>
    (field "dnsNames" decStrList fs).bind fun (d, fs) =>
    match fs with
    | [] => some ⟨name, id, sandboxID, i, d⟩
    | _ => none
  | _ => none

end Persist

/-! Theorems. -/

theorem lookup_setKeyTable (l : List ExtKey.Sandbox) (cid k : String) :
    ExtKey.lookupSandbox (ExtKey.setKeyTable l cid k) cid =
      (ExtKey.lookupSandbox l cid).map (fun sb => { sb with key := some k }) := by
  induction l with
  | nil => rfl
  | cons sb rest ih =>
    by_cases h : sb.containerID = cid
    · simp [ExtKey.setKeyTable, ExtKey.lookupSandbox, h]
    · simp [ExtKey.setKeyTable, ExtKey.lookupSandbox, h, ih]

theorem getSandboxError_length (cid : String) :
    (ExtKey.getSandboxError cid).length = 26 + cid.length := by
  have h : ("failed to get sandbox for " : String).length = 26 := rfl
  rw [ExtKey.getSandboxError, String.length_append, h]

/-- C3: for every key-exchange connection carrying a well-formed request,
the server writes back exactly the literal success marker when the sandbox
lookup (and the always-succeeding modelled `SetKey`) succeeds — the
sandbox's key becoming set — and otherwise writes the error text as the
entire response body; for an unknown container ID the response is a
non-empty error string distinct from the success marker and the
controller's sandbox table is left unmodified. -/
theorem c3_keyExchange_response (c : ExtKey.Controller)
    (d : ExtKey.SetKeyData) :
    ((ExtKey.getSandbox c d.containerID).isSome →
      ExtKey.handleConnection c (.valid d) =
        (ExtKey.success, ExtKey.setKey c d.containerID d.key) ∧
      (ExtKey.getSandbox (ExtKey.setKey c d.containerID d.key)
          d.containerID).map ExtKey.Sandbox.key = some (some d.key)) ∧
    (ExtKey.getSandbox c d.containerID = none →
      ExtKey.handleConnection c (.valid d) =
        (ExtKey.getSandboxError d.containerID, c) ∧
      ExtKey.getSandboxError d.containerID ≠ "" ∧
      ExtKey.getSandboxError d.containerID ≠ ExtKey.success) := by
  constructor
  · intro hsome
    obtain ⟨sb, hsb⟩ := Option.isSome_iff_exists.mp hsome
    have h0 : ExtKey.processExternalKey c (.valid d) =
        .ok (ExtKey.setKey c d.containerID d.key) := by
      show (match ExtKey.getSandbox c d.containerID with
        | none => Except.error (ExtKey.getSandboxError d.containerID)
        | some _ => Except.ok (ExtKey.setKey c d.containerID d.key)) =
        Except.ok (ExtKey.setKey c d.containerID d.key)
      rw [hsb]
    constructor
    · unfold ExtKey.handleConnection
      rw [h0]
    · have h := lookup_setKeyTable c.sandboxes d.containerID d.key
      simp only [ExtKey.getSandbox, ExtKey.setKey] at *
      rw [h, hsb]
      rfl
  · intro hnone
    have h0 : ExtKey.processExternalKey c (.valid d) =
        .error (ExtKey.getSandboxError d.containerID) := by
      show (match ExtKey.getSandbox c d.containerID with
        | none => Except.error (ExtKey.getSandboxError d.containerID)
        | some _ => Except.ok (ExtKey.setKey c d.containerID d.key)) =
        Except.error (ExtKey.getSandboxError d.containerID)
      rw [hnone]
    refine ⟨by unfold ExtKey.handleConnection; rw [h0], ?_, ?_⟩
    · intro h
      have := congrArg String.length h
      rw [getSandboxError_length] at this
      simp at this
    · intro h
      have := congrArg String.length h
      rw [getSandboxError_length] at this
      have hs : (ExtKey.success).length = 7 := rfl
      rw [hs] at this
      omega

/-- Witness for C3 at a concrete controller: a known container id yields the
success marker and sets the key; an unknown one yields the error text and
leaves the table unchanged. -/
theorem c3_keyExchange_response_witness :
    ExtKey.handleConnection ⟨[⟨"c1", none⟩]⟩ (.valid ⟨"c1", "/proc/7/ns/net"⟩) =
      (ExtKey.success, ⟨[⟨"c1", some "/proc/7/ns/net"⟩]⟩) ∧
    ExtKey.handleConnection ⟨[⟨"c1", none⟩]⟩ (.valid ⟨"nope", "/k"⟩) =
      (ExtKey.getSandboxError "nope", ⟨[⟨"c1", none⟩]⟩) ∧
    ExtKey.getSandboxError "nope" ≠ "" := by
  refine ⟨?_, ?_, ?_⟩
  · have h := (c3_keyExchange_response ⟨[⟨"c1", none⟩]⟩
      ⟨"c1", "/proc/7/ns/net"⟩).1 (by decide)
    have h2 := h.1
    rw [h2]
    decide
  · exact ((c3_keyExchange_response ⟨[⟨"c1", none⟩]⟩ ⟨"nope", "/k"⟩).2
      (by decide)).1
  · exact ((c3_keyExchange_response ⟨[⟨"c1", none⟩]⟩ ⟨"nope", "/k"⟩).2
      (by decide)).2.1

/-- C8 counterexample: the claim says the request is read into a buffer of
at most 1024 bytes, but the server's single bounded read of the request
(`processExternalKey`, buffer of 1280 bytes) returns all 1100 bytes of a
1100-byte request, which exceeds 1024. -/
theorem c8_requestRead_counterexample :
    (ExtKey.serverReadMessage (List.replicate 1100 'a')).length = 1100 ∧
    ¬ (ExtKey.serverReadMessage (List.replicate 1100 'a')).length ≤ 1024 := by
  have h : (ExtKey.serverReadMessage (List.replicate 1100 'a')).length
      = 1100 := by
    rw [ExtKey.serverReadMessage, ExtKey.readBounded, ExtKey.serverBufSize,
      List.take_replicate, List.length_replicate]
    omega
  exact ⟨h, by rw [h]; omega⟩

/-- C8 (amended): each side performs exactly one bounded read per connection
and treats the bytes read as the entire message — the response is read by
the client into a buffer of at most 1024 bytes and the request by the
server into a buffer of at most 1280 bytes; the client returns success if
and only if the bytes read equal the 7-byte literal success marker, and
otherwise returns an error whose message is exactly the bytes read. -/
theorem c8_boundedRead (resp req : List Char) :
    ExtKey.clientReadMessage resp = resp.take 1024 ∧
    ExtKey.serverReadMessage req = req.take 1280 ∧
    ExtKey.success.toList.length = 7 ∧
    (ExtKey.processReturn resp = .ok () ↔
      ExtKey.clientReadMessage resp = ExtKey.success.toList) ∧
    (∀ e, ExtKey.processReturn resp = .error e →
      e = ExtKey.clientReadMessage resp) := by
  refine ⟨rfl, rfl, rfl, ?_, ?_⟩
  · unfold ExtKey.processReturn
    by_cases h : ExtKey.clientReadMessage resp = ExtKey.success.toList <;>
      simp [h]
  · intro e
    unfold ExtKey.processReturn
    by_cases h : ExtKey.clientReadMessage resp = ExtKey.success.toList
    · simp [h]
    · rw [if_neg h]
      intro he
      exact (Except.error.inj he).symm

/-- Witness for C8: a literal success response is accepted and a non-success
response is returned verbatim as the error. -/
theorem c8_boundedRead_witness :
    ExtKey.processReturn ("success".toList) = .ok () ∧
    ExtKey.processReturn ("boom".toList) = .error ("boom".toList) := by
  constructor
  · exact ((c8_boundedRead ("success".toList) []).2.2.2.1).mpr (by decide)
  · have hb : ExtKey.processReturn ("boom".toList) =
        .error (ExtKey.clientReadMessage ("boom".toList)) := rfl
    have h := (c8_boundedRead ("boom".toList) []).2.2.2.2
      (ExtKey.clientReadMessage ("boom".toList)) hb
    have hc : ExtKey.clientReadMessage ("boom".toList) = "boom".toList := by
      decide
    rw [hb, hc]

/-- C9: the accept loop never terminates on an accept error unless the
listening socket file has been removed — a step with an accept error stops
silently iff the socket file is gone, logs and continues otherwise, and a
run of the loop over any finite schedule of accept outcomes terminates only
at an event whose accept failed while the socket file was absent; if the
socket file is present throughout, the loop never stops. -/
theorem c9_acceptLoop_shutdown :
    (∀ (ev : ExtKey.AcceptEvent) (e : String), ev.acceptError = some e →
      (ExtKey.acceptLoopStep ev = .stopSilently ↔
        ev.socketPresent = false) ∧
      (ev.socketPresent = true →
        ExtKey.acceptLoopStep ev = .logAndContinue e)) ∧
    (∀ (events : List ExtKey.AcceptEvent) (i : Nat),
      ExtKey.acceptLoop events = some i →
      ∃ ev, events.get? i = some ev ∧ ev.acceptError.isSome = true ∧
        ev.socketPresent = false) ∧
    (∀ events : List ExtKey.AcceptEvent,
      (∀ ev ∈ events, ev.socketPresent = true) →
      ExtKey.acceptLoop events = none) := by
  refine ⟨?_, ?_, ?_⟩
  · rintro ⟨err, present⟩ e he
    cases present <;> simp_all [ExtKey.acceptLoopStep]
  · intro events
    induction events with
    | nil => intro i h; simp [ExtKey.acceptLoop] at h
    | cons ev rest ih =>
      intro i h
      by_cases hstop : ExtKey.acceptLoopStep ev = .stopSilently
      · rw [ExtKey.acceptLoop, if_pos hstop] at h
        obtain rfl : (0 : Nat) = i := Option.some.inj h
        have hev : ev.acceptError.isSome = true ∧ ev.socketPresent = false := by
          rcases hee : ev.acceptError with _ | e <;>
            rcases hp : ev.socketPresent with _ | _ <;>
              simp_all [ExtKey.acceptLoopStep]
        exact ⟨ev, rfl, hev.1, hev.2⟩
      · rw [ExtKey.acceptLoop, if_neg hstop] at h
        rw [Option.map_eq_some'] at h
        obtain ⟨j, hj, hij⟩ := h
        obtain ⟨ev', h1, h2, h3⟩ := ih j hj
        refine ⟨ev', ?_, h2, h3⟩
        rw [← hij]
        simpa using h1
  · intro events hall
    induction events with
    | nil => rfl
    | cons ev rest ih =>
      have hp : ev.socketPresent = true := hall ev (by simp)
      have hstep : ¬ ExtKey.acceptLoopStep ev = .stopSilently := by
        rcases hee : ev.acceptError with _ | e <;>
          simp [ExtKey.acceptLoopStep, hee, hp]
      have hrest : ExtKey.acceptLoop rest = none :=
        ih (fun e he => hall e (by simp [he]))
      rw [ExtKey.acceptLoop, if_neg hstep, hrest, Option.map_none']

/-- Witness for C9: a schedule with a logged accept error and then a clean
shutdown terminates exactly at the shutdown event, and an error with the
socket still present is logged and continued past. -/
theorem c9_acceptLoop_shutdown_witness :
    ExtKey.acceptLoopStep ⟨some "EMFILE", true⟩ =
      .logAndContinue "EMFILE" ∧
    ExtKey.acceptLoop
      [⟨none, true⟩, ⟨some "EMFILE", true⟩, ⟨some "closed", false⟩] =
      some 2 ∧
    ExtKey.acceptLoop [⟨none, true⟩, ⟨some "EMFILE", true⟩] = none := by
  refine ⟨?_, by decide, ?_⟩
  · exact ((c9_acceptLoop_shutdown.1 ⟨some "EMFILE", true⟩ "EMFILE" rfl).2) rfl
  · exact c9_acceptLoop_shutdown.2.2
      [⟨none, true⟩, ⟨some "EMFILE", true⟩] (by decide)

/-- C10: `startExternalKeyListener` starts the background accept task only
after directory creation, listen, and chmod have all succeeded; when it
returns an error (in particular when the chmod fails and the just-created
listener is closed) no listener is left open and no accept loop is
running. -/
theorem c10_startListener_cleanup (m l ch : Bool) :
    ((ExtKey.startExternalKeyListener m l ch).2.isSome = true →
      (ExtKey.startExternalKeyListener m l ch).1 = ⟨false, false⟩) ∧
    ((ExtKey.startExternalKeyListener m l ch).2 = none →
      (ExtKey.startExternalKeyListener m l ch).1 = ⟨true, true⟩) ∧
    ((ExtKey.startExternalKeyListener m l ch).1.acceptLoopRunning = true →
      m = true ∧ l = true ∧ ch = true) := by
  revert m l ch
  decide

/-- Witness for C10: a failing chmod closes the listener and starts nothing;
a fully successful setup leaves the listener open with the loop running. -/
theorem c10_startListener_cleanup_witness :
    (ExtKey.startExternalKeyListener true true false).1 = ⟨false, false⟩ ∧
    (ExtKey.startExternalKeyListener true true true).1 = ⟨true, true⟩ := by
  exact ⟨(c10_startListener_cleanup true true false).1 (by decide),
    (c10_startListener_cleanup true true true).2.1 (by decide)⟩

theorem decNums_enc (l : List Nat) :
    Persist.decNums (l.map .num) = some l := by
  induction l with
  | nil => rfl
  | cons x xs ih => simp [Persist.decNums, ih]

theorem decNatList_enc (l : List Nat) :
    Persist.decNatList (Persist.encNatList l) = some l := by
  simp [Persist.encNatList, Persist.decNatList, decNums_enc]

theorem decStrFields_enc (m : List (String × String)) :
    Persist.decStrFields (m.map (fun kv => (kv.1, .str kv.2))) = some m := by
  induction m with
  | nil => rfl
  | cons kv rest ih => simp [Persist.decStrFields, ih]

theorem decStrMap_enc (m : List (String × String)) :
    Persist.decStrMap (Persist.encStrMap m) = some m := by
  simp [Persist.encStrMap, Persist.decStrMap, decStrFields_enc]

theorem decIPNet_enc (n : Persist.IPNet) :
    Persist.decIPNet (Persist.encIPNet n) = some n := by
  simp [Persist.encIPNet, Persist.decIPNet, decNatList_enc]

theorem decOpt_enc {α : Type} (dec : Persist.JVal → Option α)
    (enc : α → Persist.JVal) (h : ∀ x, dec (enc x) = some x)
    (hn : ∀ x, enc x ≠ .null) (o : Option α) :
    Persist.decOpt dec (Persist.encOpt enc o) = some o := by
  cases o with
  | none => rfl
  | some x =>
    have hd : Persist.decOpt dec (enc x) = (dec (enc x)).map some := by
      cases henc : enc x <;> first | exact absurd henc (hn x) | rfl
    simp [Persist.encOpt, hd, h]

theorem decList_enc {α : Type} (dec : Persist.JVal → Option α)
    (enc : α → Persist.JVal) (h : ∀ x, dec (enc x) = some x) (l : List α) :
    Persist.decList dec (l.map enc) = some l := by
  induction l with
  | nil => rfl
  | cons x xs ih => simp [Persist.decList, h, ih]

theorem decIPNetList_enc (l : List Persist.IPNet) :
    Persist.decIPNetList (Persist.encIPNetList l) = some l := by
  simp [Persist.encIPNetList, Persist.decIPNetList,
    decList_enc Persist.decIPNet Persist.encIPNet decIPNet_enc]

theorem decIPNetFields_enc (m : List (String × Persist.IPNet)) :
    Persist.decIPNetFields
      (m.map (fun kv => (kv.1, Persist.encIPNet kv.2))) = some m := by
  induction m with
  | nil => rfl
  | cons kv rest ih => simp [Persist.decIPNetFields, decIPNet_enc, ih]

theorem decIPNetMap_enc (m : List (String × Persist.IPNet)) :
    Persist.decIPNetMap (Persist.encIPNetMap m) = some m := by
  simp [Persist.encIPNetMap, Persist.decIPNetMap, decIPNetFields_enc]

theorem decStrs_enc (l : List String) :
    Persist.decStrs (l.map .str) = some l := by
  induction l with
  | nil => rfl
  | cons x xs ih => simp [Persist.decStrs, ih]

theorem decStrList_enc (l : List String) :
    Persist.decStrList (Persist.encStrList l) = some l := by
  simp [Persist.encStrList, Persist.decStrList, decStrs_enc]

theorem encStrMap_ne_null (m : List (String × String)) :
    Persist.encStrMap m ≠ .null := by
  simp [Persist.encStrMap]

theorem encIPNet_ne_null (n : Persist.IPNet) :
    Persist.encIPNet n ≠ .null := by
  simp [Persist.encIPNet]

theorem encIPNetMap_ne_null (m : List (String × Persist.IPNet)) :
    Persist.encIPNetMap m ≠ .null := by
  simp [Persist.encIPNetMap]

theorem encIPNetList_ne_null (l : List Persist.IPNet) :
    Persist.encIPNetList l ≠ .null := by
  simp [Persist.encIPNetList]

theorem unmarshalIpamConf_marshal (c : Persist.IpamConf) :
    Persist.unmarshalIpamConf (Persist.marshalIpamConf c) = some c := by
  simp [Persist.marshalIpamConf, Persist.unmarshalIpamConf,
    decOpt_enc Persist.decStrMap Persist.encStrMap decStrMap_enc
      encStrMap_ne_null]

theorem unmarshalIpamInfo_marshal (i : Persist.IpamInfo) :
    Persist.unmarshalIpamInfo (Persist.marshalIpamInfo i) = some i := by
  simp [Persist.marshalIpamInfo, Persist.unmarshalIpamInfo, decStrMap_enc,
    decOpt_enc Persist.decIPNet Persist.encIPNet decIPNet_enc
      encIPNet_ne_null,
    decOpt_enc Persist.decIPNetMap Persist.encIPNetMap decIPNetMap_enc
      encIPNetMap_ne_null]

theorem unmarshalIface_marshal (i : Persist.EndpointInterface) :
    Persist.unmarshalIface (Persist.marshalIface i) = some i := by
  simp [Persist.marshalIface, Persist.unmarshalIface, decNatList_enc,
    decOpt_enc Persist.decIPNet Persist.encIPNet decIPNet_enc
      encIPNet_ne_null,
    decOpt_enc Persist.decIPNetList Persist.encIPNetList decIPNetList_enc
      encIPNetList_ne_null]

theorem unmarshalNetworkTail_enc (name id networkType ipamType addrSpace :
    String) (e4 e6 persist configOnly : Bool) (configFrom : String)
    (opts : List (String × String)) (c4 c6 : List Persist.IpamConf)
    (i4 i6 : List Persist.IpamInfo) (lbls : List (String × String))
    (created : Nat) :
    Persist.unmarshalNetworkTail name id networkType ipamType addrSpace e4
      e6 persist configOnly configFrom opts c4 c6 i4 i6
      [("labels", Persist.encStrMap lbls), ("created", .num created)] =
    some ⟨name, id, networkType, ipamType, addrSpace, e4, e6, persist,
      configOnly, configFrom, opts, c4, c6, i4, i6, lbls, created⟩ := by
  simp only [Persist.unmarshalNetworkTail, Persist.field, Persist.decNum,
    eq_self_iff_true, if_true, decStrMap_enc, Option.map_some',
    Option.some_bind]

theorem unmarshalNetworkIpam_enc (name id networkType ipamType addrSpace :
    String) (e4 e6 persist configOnly : Bool) (configFrom : String)
    (opts : List (String × String)) (c4 c6 : List Persist.IpamConf)
    (i4 i6 : List Persist.IpamInfo) (lbls : List (String × String))
    (created : Nat) :
    Persist.unmarshalNetworkIpam name id networkType ipamType addrSpace e4
      e6 persist configOnly configFrom
      [("ipamOptions", Persist.encStrMap opts),
       ("ipamV4Config", .arr (c4.map Persist.marshalIpamConf)),
       ("ipamV6Config", .arr (c6.map Persist.marshalIpamConf)),
       ("ipamV4Info", .arr (i4.map Persist.marshalIpamInfo)),
       ("ipamV6Info", .arr (i6.map Persist.marshalIpamInfo)),
       ("labels", Persist.encStrMap lbls), ("created", .num created)] =
    some ⟨name, id, networkType, ipamType, addrSpace, e4, e6, persist,
      configOnly, configFrom, opts, c4, c6, i4, i6, lbls, created⟩ := by
  simp only [Persist.unmarshalNetworkIpam, Persist.field,
    Persist.decConfList, Persist.decInfoList, eq_self_iff_true, if_true,
    decStrMap_enc,
    decList_enc Persist.unmarshalIpamConf Persist.marshalIpamConf
      unmarshalIpamConf_marshal,
    decList_enc Persist.unmarshalIpamInfo Persist.marshalIpamInfo
      unmarshalIpamInfo_marshal,
    Option.map_some', Option.some_bind, unmarshalNetworkTail_enc]

/-- C5: serializing a Network or Endpoint entity and deserializing the
result reproduces every field of the data model unchanged — name, id,
driver type, IPAM type, address-family flags, persistence and config-only
flags, the parallel ipamV4Config/ipamV4Info and ipamV6Config/ipamV6Info
lists, labels, creation time, and for Endpoints the interface fields (MAC,
v4/v6 addresses, pool IDs, link-local addresses) and DNS names — with nil
vs. empty distinctions for address lists preserved by the `Option`-valued
fields. -/
theorem c5_marshalling_roundtrip :
    (∀ n : Persist.Network,
      Persist.unmarshalNetwork (Persist.marshalNetwork n) = some n) ∧
    (∀ e : Persist.Endpoint,
      Persist.unmarshalEndpoint (Persist.marshalEndpoint e) = some e) := by
  constructor
  · intro n
    simp only [Persist.marshalNetwork, Persist.unmarshalNetwork,
      Persist.field, Persist.decStr, Persist.decBool, eq_self_iff_true,
      if_true, Option.map_some', Option.some_bind,
      unmarshalNetworkIpam_enc]
  · intro e
    simp only [Persist.marshalEndpoint, Persist.unmarshalEndpoint,
      Persist.field, Persist.decStr, eq_self_iff_true, if_true,
      Option.map_some', Option.some_bind, unmarshalIface_marshal,
      decStrList_enc]

/-- C7: a `_port._proto.service` SRV query against a registered
port/protocol pair returns each backing target's address — the
container-backed target under `_http._tcp` and the host-published target
under `_host_http._tcp` — while a query with an unregistered protocol
(`_icmp`), a query whose service has no matching port/protocol entry, or a
malformed name (fewer than three labels) returns an empty result, and
resolution never returns an error. -/
theorem c7_srv_resolution :
    Srv.ResolveService Srv.testServiceTable "_http._tcp.web.swarm" =
      ["192.168.10.2"] ∧
    Srv.ResolveService Srv.testServiceTable "_host_http._tcp.web.swarm" =
      ["10.10.10.2"] ∧
    Srv.ResolveService Srv.testServiceTable "_http._icmp.web.swarm" = [] ∧
    (∀ (t : Srv.ServiceTable) (q : String),
      Srv.parseSrvQuery q = none → Srv.ResolveService t q = []) ∧
    (∀ (t : Srv.ServiceTable) (q port proto svc : String),
      Srv.parseSrvQuery q = some (port, proto, svc) →
      (∀ sp ∈ Srv.lookupService t svc,
        ¬(sp.portName = port ∧ sp.proto = proto)) →
      Srv.ResolveService t q = []) := by
  refine ⟨by decide, by decide, by decide, ?_, ?_⟩
  · intro t q h
    unfold Srv.ResolveService
    rw [h]
  · intro t q port proto svc h hnone
    unfold Srv.ResolveService
    rw [h]
    have hf : (Srv.lookupService t svc).filter
        (fun sp => decide (sp.portName = port ∧ sp.proto = proto)) = [] := by
      rw [List.filter_eq_nil_iff]
      intro sp hsp
      simpa using hnone sp hsp
    show ((Srv.lookupService t svc).filter
        (fun sp => decide (sp.portName = port ∧ sp.proto = proto))).flatMap
        (fun sp => sp.target.map (fun x => x.ip)) = []
    rw [hf]
    rfl

/-- Witness for C7: a malformed two-label query and a query whose
port/protocol pair is not registered both resolve to the empty set. -/
theorem c7_srv_resolution_witness :
    Srv.ResolveService Srv.testServiceTable "web.swarm" = [] ∧
    Srv.ResolveService Srv.testServiceTable "_http._tcp.unknown.svc" =
      [] := by
  constructor
  · exact c7_srv_resolution.2.2.2.1 Srv.testServiceTable "web.swarm"
      (by decide)
  · exact c7_srv_resolution.2.2.2.2 Srv.testServiceTable
      "_http._tcp.unknown.svc" "_http" "_tcp" "unknown.svc" (by decide)
      (by decide)

theorem rowRemove_not_mem {V : Type} [DecidableEq V]
    (row : SvcRecords.Row V) (v : V) (h : v ∉ row.map Prod.fst) :
    SvcRecords.rowRemove row v = row := by
  induction row with
  | nil => rfl
  | cons p rest ih =>
    obtain ⟨w, c⟩ := p
    simp only [List.map_cons, List.mem_cons] at h
    push_neg at h
    rw [SvcRecords.rowRemove, if_neg (by simpa using (h.1 ∘ Eq.symm)),
      ih h.2]

theorem smRemove_not_mem {V : Type} [DecidableEq V]
    (m : SvcRecords.SetMatrix V) (k : String) (v : V)
    (h : v ∉ SvcRecords.smGet m k) :
    SvcRecords.smRemove m k v = m := by
  induction m with
  | nil => rfl
  | cons row rest ih =>
    obtain ⟨k', r⟩ := row
    by_cases hk : k' = k
    · rw [SvcRecords.smGet, if_pos hk] at h
      rw [SvcRecords.smRemove, if_pos hk, rowRemove_not_mem r v h]
    · rw [SvcRecords.smGet, if_neg hk] at h
      rw [SvcRecords.smRemove, if_neg hk, ih h]

/-- C2: a service name and address added under two distinct serviceIDs
(same name, same IP — the shared virtual IP) resolves to exactly one
address, and the reverse lookup yields the network-qualified service name;
after deleting the record under the first serviceID the name still
resolves to that address and the reverse lookup still succeeds; after
deleting the record under the second (last) serviceID, `ResolveName`
returns the empty set and `ResolveIP` returns the empty string. -/
theorem c2_vip_reuse (nwName name ip sid1 sid2 ep1 ep2 : String)
    (hsid : sid1 ≠ sid2) :
    let s0 : SvcRecords.SvcState := ⟨[], []⟩
    let s2 := SvcRecords.addSvcRecords ep2 name sid2 ip true
      (SvcRecords.addSvcRecords ep1 name sid1 ip true s0)
    let s3 := SvcRecords.deleteSvcRecords ep1 name sid1 ip true s2
    let s4 := SvcRecords.deleteSvcRecords ep2 name sid2 ip true s3
    SvcRecords.ResolveName s2 name = [ip] ∧
    SvcRecords.ResolveIP s2 nwName ip = name ++ "." ++ nwName ∧
    SvcRecords.ResolveName s3 name = [ip] ∧
    SvcRecords.ResolveIP s3 nwName ip = name ++ "." ++ nwName ∧
    SvcRecords.ResolveName s4 name = [] ∧
    SvcRecords.ResolveIP s4 nwName ip = "" := by
  simp [SvcRecords.addSvcRecords, SvcRecords.deleteSvcRecords,
    SvcRecords.smInsert, SvcRecords.smRemove, SvcRecords.rowInsert,
    SvcRecords.rowRemove, SvcRecords.smGet, SvcRecords.ResolveName,
    SvcRecords.ResolveIP, SvcRecords.dedupAux, hsid,
    SvcRecords.svcMapEntry.mk.injEq, SvcRecords.ipEntry.mk.injEq]

/-- Witness for C2 at the values of `TestServiceVIPReuse`: the shared VIP
resolves once, survives the first deletion, and disappears with the
last. -/
theorem c2_vip_reuse_witness :
    SvcRecords.ResolveName
      (SvcRecords.addSvcRecords "ep2" "service_test" "serviceID2"
        "192.168.0.1" true
        (SvcRecords.addSvcRecords "ep1" "service_test" "serviceID1"
          "192.168.0.1" true ⟨[], []⟩)) "service_test" = ["192.168.0.1"] ∧
    SvcRecords.ResolveName
      (SvcRecords.deleteSvcRecords "ep2" "service_test" "serviceID2"
        "192.168.0.1" true
        (SvcRecords.deleteSvcRecords "ep1" "service_test" "serviceID1"
          "192.168.0.1" true
          (SvcRecords.addSvcRecords "ep2" "service_test" "serviceID2"
            "192.168.0.1" true
            (SvcRecords.addSvcRecords "ep1" "service_test" "serviceID1"
              "192.168.0.1" true ⟨[], []⟩)))) "service_test" = [] := by
  have h := c2_vip_reuse "net1" "service_test" "192.168.0.1" "serviceID1"
    "serviceID2" "ep1" "ep2" (by decide)
  exact ⟨h.1, h.2.2.2.2.1⟩

/-- C6: deleting a registrant tuple that was never added — a serviceID with
no entry for that name and address — is a no-op, and the resolution results
for every name and address (in particular those registered under other,
still-valid serviceIDs sharing the same name and address) are unchanged. -/
theorem c6_delete_never_added (s : SvcRecords.SvcState)
    (epName name sid ip : String) (u : Bool)
    (h1 : (⟨ip, sid⟩ : SvcRecords.svcMapEntry) ∉
      SvcRecords.smGet s.svcMap name)
    (h2 : (⟨name, sid⟩ : SvcRecords.ipEntry) ∉
      SvcRecords.smGet s.ipMap ip) :
    SvcRecords.deleteSvcRecords epName name sid ip u s = s ∧
    (∀ q, SvcRecords.ResolveName
      (SvcRecords.deleteSvcRecords epName name sid ip u s) q =
      SvcRecords.ResolveName s q) ∧
    (∀ nw a, SvcRecords.ResolveIP
      (SvcRecords.deleteSvcRecords epName name sid ip u s) nw a =
      SvcRecords.ResolveIP s nw a) := by
  have hmain : SvcRecords.deleteSvcRecords epName name sid ip u s = s := by
    obtain ⟨sm, im⟩ := s
    rw [SvcRecords.deleteSvcRecords]
    simp only at h1 h2
    rw [smRemove_not_mem sm name _ h1]
    cases u
    · rfl
    · rw [if_pos rfl, smRemove_not_mem im ip _ h2]
  exact ⟨hmain, fun q => by rw [hmain], fun nw a => by rw [hmain]⟩

/-- Witness for C6 at the values of `TestServiceVIPReuse`: after the entry
under `serviceID1` has been removed, deleting again with `serviceID1`
(under the other endpoint's name) changes nothing and the still-valid
registrant under `serviceID2` keeps resolving. -/
theorem c6_delete_never_added_witness :
    SvcRecords.deleteSvcRecords "ep2" "service_test" "serviceID1"
      "192.168.0.1" true
      (SvcRecords.deleteSvcRecords "ep1" "service_test" "serviceID1"
        "192.168.0.1" true
        (SvcRecords.addSvcRecords "ep2" "service_test" "serviceID2"
          "192.168.0.1" true
          (SvcRecords.addSvcRecords "ep1" "service_test" "serviceID1"
            "192.168.0.1" true ⟨[], []⟩))) =
      SvcRecords.deleteSvcRecords "ep1" "service_test" "serviceID1"
        "192.168.0.1" true
        (SvcRecords.addSvcRecords "ep2" "service_test" "serviceID2"
          "192.168.0.1" true
          (SvcRecords.addSvcRecords "ep1" "service_test" "serviceID1"
            "192.168.0.1" true ⟨[], []⟩)) := by
  exact (c6_delete_never_added _ "ep2" "service_test" "serviceID1"
    "192.168.0.1" true (by decide) (by decide)).1

theorem releasePool_cons (p : Ipam.Pool) (l : List Nat)
    (rest : List (Ipam.Pool × List Nat)) :
    Ipam.releasePool ⟨(p, l) :: rest⟩ p = ⟨rest⟩ := by
  simp [Ipam.releasePool, Ipam.removeRow]

theorem requestPool_ok_shape (st : Ipam.IpamState) (conf : Ipam.AllocConf)
    (st1 : Ipam.IpamState) (h : Ipam.requestPool st conf = .ok st1) :
    st1 = ⟨(conf.preferredPool, []) :: st.pools⟩ := by
  unfold Ipam.requestPool at h
  by_cases hs : (conf.subPool.map
      (fun s => s.inside conf.preferredPool)).getD true = true
  · rw [if_pos hs] at h
    by_cases ho :
        st.pools.any (fun r => r.1.overlaps conf.preferredPool) = true
    · rw [if_pos ho] at h; cases h
    · rw [if_neg ho] at h
      exact (Except.ok.inj h).symm
  · rw [if_neg hs] at h; cases h

theorem reserveRows_head (p : Ipam.Pool) (l : List Nat)
    (rest : List (Ipam.Pool × List Nat)) (a : Nat) :
    Ipam.reserveRows ((p, l) :: rest) p a =
      if a ∈ l then none else some ((p, a :: l) :: rest) := by
  rw [Ipam.reserveRows, if_pos rfl]

theorem reserveAddress_head (p : Ipam.Pool) (l : List Nat)
    (rest : List (Ipam.Pool × List Nat)) (a : Nat) (st2 : Ipam.IpamState)
    (h : Ipam.reserveAddress ⟨(p, l) :: rest⟩ p a = some st2) :
    st2 = ⟨(p, a :: l) :: rest⟩ := by
  unfold Ipam.reserveAddress at h
  rw [reserveRows_head] at h
  by_cases hm : a ∈ l
  · rw [if_pos hm] at h; cases h
  · rw [if_neg hm] at h
    exact (Option.some.inj h).symm

theorem allocGateway_headRow (p : Ipam.Pool) (l : List Nat)
    (rest : List (Ipam.Pool × List Nat)) (og : Option Nat)
    (st2 : Ipam.IpamState)
    (h : Ipam.allocGateway ⟨(p, l) :: rest⟩ p og = .ok st2) :
    ∃ l', st2 = ⟨(p, l') :: rest⟩ := by
  cases og with
  | none =>
    rw [Ipam.allocGateway] at h
    exact ⟨l, (Except.ok.inj h).symm⟩
  | some g =>
    rw [Ipam.allocGateway] at h
    by_cases hg : p.holds g = true
    · rw [if_pos hg] at h
      rcases hr : Ipam.reserveAddress ⟨(p, l) :: rest⟩ p g with _ | st'
      · rw [hr] at h; cases h
      · rw [hr] at h
        refine ⟨g :: l, ?_⟩
        rw [← Except.ok.inj h]
        exact reserveAddress_head p l rest g st' hr
    · rw [if_neg hg] at h; cases h

theorem allocAux_headRow (p : Ipam.Pool)
    (rest : List (Ipam.Pool × List Nat)) :
    ∀ (aux : List (String × Nat)) (l : List Nat) (st3 : Ipam.IpamState),
      Ipam.allocAux ⟨(p, l) :: rest⟩ p aux = .ok st3 →
      ∃ l', st3 = ⟨(p, l') :: rest⟩ := by
  intro aux
  induction aux with
  | nil =>
    intro l st3 h
    rw [Ipam.allocAux] at h
    exact ⟨l, (Except.ok.inj h).symm⟩
  | cons pa restAux ih =>
    intro l st3 h
    obtain ⟨nm, a⟩ := pa
    rw [Ipam.allocAux] at h
    by_cases hh : p.holds a = true
    · rw [if_pos hh] at h
      rcases hr : Ipam.reserveAddress ⟨(p, l) :: rest⟩ p a with _ | st'
      · rw [hr] at h; cases h
      · rw [hr] at h
        rw [reserveAddress_head p l rest a st' hr] at h
        exact ih (a :: l) st3 h
    · rw [if_neg hh] at h; cases h

theorem ipamAllocateOne_fail (st : Ipam.IpamState) (conf : Ipam.AllocConf)
    (st' : Ipam.IpamState) (e : Ipam.IpamError)
    (h : Ipam.ipamAllocateOne st conf = .fail st' e) : st' = st := by
  unfold Ipam.ipamAllocateOne at h
  split at h
  · exact (Ipam.IpamResult.fail.inj h).1.symm
  · rename_i st1 heq
    split at h
    · rename_i e2 hg
      rw [requestPool_ok_shape st conf st1 heq, releasePool_cons] at h
      exact (Ipam.IpamResult.fail.inj h).1.symm
    · rename_i st2 hg
      split at h
      · rename_i e3 haux
        rw [requestPool_ok_shape st conf st1 heq] at hg
        obtain ⟨l2, hst2⟩ := allocGateway_headRow conf.preferredPool []
          st.pools conf.gateway st2 hg
        rw [hst2, releasePool_cons] at h
        exact (Ipam.IpamResult.fail.inj h).1.symm
      · cases h

theorem ipamAllocateOne_ok (st : Ipam.IpamState) (conf : Ipam.AllocConf)
    (st3 : Ipam.IpamState) (ps : List Ipam.Pool)
    (h : Ipam.ipamAllocateOne st conf = .ok st3 ps) :
    ps = [conf.preferredPool] ∧
    Ipam.releasePool st3 conf.preferredPool = st := by
  unfold Ipam.ipamAllocateOne at h
  split at h
  · cases h
  · rename_i st1 heq
    split at h
    · cases h
    · rename_i st2 hg
      split at h
      · cases h
      · rename_i stf haux
        rw [requestPool_ok_shape st conf st1 heq] at hg
        obtain ⟨l2, hst2⟩ := allocGateway_headRow conf.preferredPool []
          st.pools conf.gateway st2 hg
        rw [hst2] at haux
        obtain ⟨l3, hst3⟩ := allocAux_headRow conf.preferredPool st.pools
          conf.auxAddresses l2 stf haux
        obtain ⟨hst, hps⟩ := Ipam.IpamResult.ok.inj h
        refine ⟨hps.symm, ?_⟩
        rw [← hst, hst3, releasePool_cons]

theorem ipamAllocate_fail (confs : List Ipam.AllocConf) :
    ∀ (st st' : Ipam.IpamState) (e : Ipam.IpamError),
      Ipam.ipamAllocate st confs = .fail st' e → st' = st := by
  induction confs with
  | nil => intro st st' e h; cases h
  | cons conf confs ih =>
    intro st st' e h
    rw [Ipam.ipamAllocate] at h
    split at h
    · rename_i stf ef heq
      obtain ⟨hst, _⟩ := Ipam.IpamResult.fail.inj h
      rw [← hst]
      exact ipamAllocateOne_fail st conf stf ef heq
    · rename_i st1 ps1 heq1
      split at h
      · rename_i stg eg heq2
        obtain ⟨hst, _⟩ := Ipam.IpamResult.fail.inj h
        rw [← hst, ih st1 stg eg heq2]
        exact (ipamAllocateOne_ok st conf st1 ps1 heq1).2
      · cases h

theorem ipamAllocate_release (confs : List Ipam.AllocConf) :
    ∀ (st st' : Ipam.IpamState) (ps : List Ipam.Pool),
      Ipam.ipamAllocate st confs = .ok st' ps →
      Ipam.ipamRelease st' ps = st := by
  induction confs with
  | nil =>
    intro st st' ps h
    obtain ⟨hst, hps⟩ := Ipam.IpamResult.ok.inj h
    rw [← hst, ← hps]
    rfl
  | cons conf confs ih =>
    intro st st' ps h
    rw [Ipam.ipamAllocate] at h
    split at h
    · cases h
    · rename_i st1 ps1 heq1
      split at h
      · cases h
      · rename_i st2 ps2 heq2
        obtain ⟨hone, hrel⟩ := ipamAllocateOne_ok st conf st1 ps1 heq1
        obtain ⟨hst, hps⟩ := Ipam.IpamResult.ok.inj h
        rw [← hst, ← hps, hone]
        show Ipam.ipamRelease st2 (conf.preferredPool :: ps2) = st
        rw [Ipam.ipamRelease, ih st1 st2 ps2 heq2, hrel]

theorem allocAux_bad (p : Ipam.Pool) :
    ∀ (aux : List (String × Nat)) (st : Ipam.IpamState),
      (∃ a ∈ aux.map Prod.snd, p.holds a = false) →
      ∃ e, Ipam.allocAux st p aux = .error e := by
  intro aux
  induction aux with
  | nil =>
    intro st h
    simp at h
  | cons pa rest ih =>
    intro st h
    obtain ⟨nm, a0⟩ := pa
    by_cases h0 : p.holds a0 = true
    · rw [Ipam.allocAux, if_pos h0]
      rcases hr : Ipam.reserveAddress st p a0 with _ | st'
      · exact ⟨.addressInUse a0, rfl⟩
      · apply ih st'
        obtain ⟨a, ha, hbad⟩ := h
        rw [List.map_cons, List.mem_cons] at ha
        rcases ha with rfl | harest
        · exact Bool.noConfusion (h0.symm.trans hbad)
        · exact ⟨a, harest, hbad⟩
    · rw [Ipam.allocAux, if_neg h0]
      exact ⟨.auxOutOfRange a0, rfl⟩

/-- C4: a per-family IPAM allocation whose requested auxiliary addresses
include one outside the granted pool's range fails as a whole — pool and
gateway included — and after the failure the engine state is exactly what
it was before, so no address remains reserved and any allocation attempted
afterwards (in particular one requesting the same pool, gateway, and
addresses) behaves exactly as if the failed attempt had never happened. -/
theorem c4_aux_all_or_nothing (st : Ipam.IpamState) (conf : Ipam.AllocConf)
    (a : Nat) (ha : a ∈ conf.auxAddresses.map Prod.snd)
    (hbad : conf.preferredPool.holds a = false) :
    (∃ e, Ipam.ipamAllocateOne st conf = .fail st e) ∧
    ∀ conf2, Ipam.ipamAllocateOne
        (Ipam.ipamAllocateOne st conf).state conf2 =
      Ipam.ipamAllocateOne st conf2 := by
  have hfail : ∃ st' e, Ipam.ipamAllocateOne st conf = .fail st' e := by
    unfold Ipam.ipamAllocateOne
    split
    · exact ⟨_, _, rfl⟩
    · split
      · exact ⟨_, _, rfl⟩
      · rename_i st2 hg
        obtain ⟨e3, haux⟩ := allocAux_bad conf.preferredPool
          conf.auxAddresses st2 ⟨a, ha, hbad⟩
        rw [haux]
        exact ⟨_, _, rfl⟩
  obtain ⟨st', e, hf⟩ := hfail
  have hst : st' = st := ipamAllocateOne_fail st conf st' e hf
  subst hst
  refine ⟨⟨e, hf⟩, ?_⟩
  intro conf2
  rw [hf]
  exact rfl

/-- Witness for C4 at the values of `TestAuxAddresses`: pool
`192.168.0.0/16`, sub-pool `192.168.1.0/24`, auxiliary address
`192.169.2.4` (outside the pool) — the allocation fails leaving the empty
engine state untouched, and a subsequent allocation with the in-range
auxiliary address `192.168.1.2` behaves as from the untouched state. -/
theorem c4_aux_all_or_nothing_witness :
    (∃ e, Ipam.ipamAllocateOne ⟨[]⟩
        ⟨⟨3232235520, 65536⟩, some ⟨3232235776, 256⟩, none,
          [("badOne", 3232301572)]⟩ = .fail ⟨[]⟩ e) ∧
    Ipam.ipamAllocateOne
        (Ipam.ipamAllocateOne ⟨[]⟩
          ⟨⟨3232235520, 65536⟩, some ⟨3232235776, 256⟩, none,
            [("badOne", 3232301572)]⟩).state
        ⟨⟨3232235520, 65536⟩, some ⟨3232235776, 256⟩, none,
          [("goodOne", 3232235778)]⟩ =
      Ipam.ipamAllocateOne ⟨[]⟩
        ⟨⟨3232235520, 65536⟩, some ⟨3232235776, 256⟩, none,
          [("goodOne", 3232235778)]⟩ := by
  have h := c4_aux_all_or_nothing ⟨[]⟩
    ⟨⟨3232235520, 65536⟩, some ⟨3232235776, 256⟩, none,
      [("badOne", 3232301572)]⟩ 3232301572 (by decide) (by decide)
  exact ⟨h.1, h.2 _⟩

/-- C1: when IPAM pool/gateway allocation succeeds but the driver's
`CreateNetwork` fails, every pool and address allocated for the network is
released before the error is returned — the controller is returned to
exactly its prior state — so a subsequent network creation requesting the
same pools and gateways on a working driver succeeds. -/
theorem c1_ipam_release_on_driver_failure (c : Ipam.NetController)
    (confs : List Ipam.AllocConf) (name1 name2 : String)
    (st : Ipam.IpamState) (ps : List Ipam.Pool)
    (halloc : Ipam.ipamAllocate c.ipam confs = .ok st ps)
    (h1 : c.networks.any (fun n => n.1 = name1) = false)
    (h2 : c.networks.any (fun n => n.1 = name2) = false) :
    Ipam.newNetwork c true name1 confs = .fail c .driverCreateFailed ∧
    Ipam.newNetwork (Ipam.newNetwork c true name1 confs).state false name2
        confs = .ok ⟨st, (name2, ps) :: c.networks⟩ := by
  have hrel := ipamAllocate_release confs c.ipam st ps halloc
  have h1' : ¬(c.networks.any (fun n => n.1 = name1) = true) := by
    rw [h1]; simp
  have h2' : ¬(c.networks.any (fun n => n.1 = name2) = true) := by
    rw [h2]; simp
  have hmain : Ipam.newNetwork c true name1 confs =
      .fail c .driverCreateFailed := by
    unfold Ipam.newNetwork
    rw [if_neg h1', halloc]
    show Ipam.NetResult.fail
        ⟨Ipam.ipamRelease st ps, c.networks⟩ .driverCreateFailed =
      .fail c .driverCreateFailed
    rw [hrel]
  refine ⟨hmain, ?_⟩
  rw [hmain]
  show Ipam.newNetwork c false name2 confs =
    .ok ⟨st, (name2, ps) :: c.networks⟩
  unfold Ipam.newNetwork
  rw [if_neg h2', halloc]
  exact rfl

/-- Witness for C1 at the values of `TestIpamReleaseOnNetDriverFailures`:
pool `10.34.0.0/16` with gateway `10.34.255.254` — creation on the failing
driver returns the driver error with the controller unchanged, and the
subsequent creation of the same pool and gateway on the working driver
succeeds. -/
theorem c1_ipam_release_on_driver_failure_witness :
    Ipam.newNetwork ⟨⟨[]⟩, []⟩ true "badnet1"
        [⟨⟨170000384, 65536⟩, none, some 170065918, []⟩] =
      .fail ⟨⟨[]⟩, []⟩ .driverCreateFailed ∧
    Ipam.newNetwork
        (Ipam.newNetwork ⟨⟨[]⟩, []⟩ true "badnet1"
          [⟨⟨170000384, 65536⟩, none, some 170065918, []⟩]).state false
        "goodnet1" [⟨⟨170000384, 65536⟩, none, some 170065918, []⟩] =
      .ok ⟨⟨[(⟨170000384, 65536⟩, [170065918])]⟩,
        [("goodnet1", [⟨170000384, 65536⟩])]⟩ := by
  have h := c1_ipam_release_on_driver_failure ⟨⟨[]⟩, []⟩
    [⟨⟨170000384, 65536⟩, none, some 170065918, []⟩] "badnet1" "goodnet1"
    ⟨[(⟨170000384, 65536⟩, [170065918])]⟩ [⟨170000384, 65536⟩]
    (by decide) (by decide) (by decide)
  exact ⟨h.1, h.2⟩

end Spec2Proof
